import Mathlib

/-!
Shallow embedding of the core of `django_apscheduler` (models.py, admin.py,
descovertasks.py) and proofs about its execution-record reconciler, retention
cleanup, run-now batch loop and task registry.

Datetimes are embedded as `Int` (seconds); `datetime` subtraction
(`total_seconds`) becomes `Int` subtraction and `timestamp()` of a normalized
datetime is that same `Int`.  The normalization function
`get_django_internal_datetime` lives in `django_apscheduler/util.py`, which is
not part of the sources modelled here; it is therefore an explicit parameter
`normalize : Int → Int` of every operation that uses it.
-/

namespace DjangoApscheduler

/-- Status constant `DjangoJobExecution.SENT` (models.py line 59). -/
def SENT : String := "开始执行"

/-- Status constant `DjangoJobExecution.SUCCESS` (models.py line 60). -/
def SUCCESS : String := "正在执行"

/-- Status constant `DjangoJobExecution.MISSED` (models.py line 61). -/
def MISSED : String := "任务丢失"

/-- Status constant `DjangoJobExecution.MAX_INSTANCES` (models.py line 62). -/
def MAX_INSTANCES : String := "实例阻塞"

/-- Status constant `DjangoJobExecution.ERROR` (models.py line 63). -/
def ERROR : String := "任务错误"

/-- `DjangoJobExecution.STATUS_CHOICES` (models.py lines 65-72):
`[(x, x) for x in [SENT, ERROR, SUCCESS]]`. -/
def STATUS_CHOICES : List (String × String) :=
  ([SENT, ERROR, SUCCESS]).map (fun x => (x, x))

/-- One row of the `DjangoJobExecution` table (models.py lines 58-128).
`run_time` is stored already normalized; `duration` and `finished` are the
nullable decimal columns; `exception` and `traceback` the nullable text
columns (`none` embeds SQL NULL / Python `None`). -/
structure ExecutionRecord where
  job_id : String
  run_time : Int
  status : String
  duration : Option Int
  finished : Option Int
  exception : Option String
  traceback : Option String
deriving Repr, DecidableEq

/-- The execution-record table, in insertion order. -/
abbrev Store := List ExecutionRecord

/-- The lookup key used by `DjangoJobExecution.objects.get(job_id=..., run_time=...)`
and by the `unique_job_executions` constraint (models.py lines 169-171, 221-225). -/
def keyOf (r : ExecutionRecord) : String × Int := (r.job_id, r.run_time)

/-- Does record `r` match the (job_id, run_time) lookup key? -/
def sameKey (r : ExecutionRecord) (jid : String) (rt : Int) : Bool :=
  r.job_id == jid && r.run_time == rt

/-- `DjangoJobExecution.objects.get(job_id=jid, run_time=rt)`: the first row
matching the key, or `none` when `DoesNotExist` would be raised. -/
def findRecord : Store → String → Int → Option ExecutionRecord
  | [], _, _ => none
  | r :: s, jid, rt => if sameKey r jid rt then some r else findRecord s jid rt

/-- `job_execution.save()`: write back the (mutated) row, replacing the rows
that carry its key. -/
def saveRecord : Store → ExecutionRecord → Store
  | [], _ => []
  | r :: s, je => (if sameKey r je.job_id je.run_time then je else r) :: saveRecord s je

/-- Python truthiness of the optional `exception` / `traceback` strings:
`None` and the empty string are falsy (models.py lines 188, 191). -/
def truthy : Option String → Bool
  | none => false
  | some s => s != ""

/-- `DjangoJobExecution.atomic_update_or_create` (models.py lines 132-213),
run under the scheduler lock, embedded as a pure step on the store.

`normalize` stands for `util.get_django_internal_datetime` (not among the
modelled sources); `now` is `timezone.now()` at delivery time.  Returns the
record the Python method returns together with the updated store. -/
def atomic_update_or_create (normalize : Int → Int) (now : Int) (store : Store)
    (job_id : String) (run_time : Int) (status : String)
    (exception : Option String) (traceback : Option String) :
    ExecutionRecord × Store :=
  let rt := normalize run_time
  let finished := normalize now
  let duration := finished - rt
  match findRecord store job_id rt with
  | some je =>
    if status == SENT then
      (je, store)
    else
      let je2 : ExecutionRecord :=
        { je with
          finished := some finished
          duration := some duration
          status := status
          exception := if truthy exception then exception else je.exception
          traceback := if truthy traceback then traceback else je.traceback }
      (je2, saveRecord store je2)
  | none =>
    let je : ExecutionRecord :=
      { job_id := job_id
        run_time := rt
        status := status
        duration := if status == SENT then none else some duration
        finished := if status == SENT then none else some finished
        exception := exception
        traceback := traceback }
    (je, store ++ [je])

/-- `DjangoJobExecutionManager.delete_old_job_executions` (models.py lines
47-55): delete the rows with `run_time <= now - max_age`; the result is the
rows that survive. -/
def delete_old_job_executions (now : Int) (max_age : Int) (store : Store) : Store :=
  store.filter (fun r => !(decide (r.run_time ≤ now - max_age)))

/-- An entry of `task_list` in descovertasks.py (class Task, lines 6-10);
the callable is embedded as an identifier string. -/
structure Task where
  name : String
  func : String
  docs : String
deriving Repr, DecidableEq

/-- `task_func(name)` (descovertasks.py lines 30-35): first task in the list
whose name matches, else Python `None` (embedded as `none`). -/
def task_func : List Task → String → Option String
  | [], _ => none
  | t :: rest, name => if t.name == name then some t.func else task_func rest name

/-- Modelled from the spec: `resolve(name) -> callable` — "returns the callable
or fails with `TaskNotFoundError`" (§4.1).  The error branch, absent from the
code, is embedded as `Except.error "TaskNotFoundError"`. -/
def resolve_spec (task_list : List Task) (name : String) : Except String String :=
  match task_list.find? (fun t => t.name == name) with
  | some t => Except.ok t.func
  | none => Except.error "TaskNotFoundError"

/-- The job object returned by `DjangoJobStore.lookup_job` in admin.py's
`run_selected_jobs`; only the fields the loop reads are kept. -/
structure AdminJob where
  id : String
  func_ref : String
deriving Repr, DecidableEq

/-- The per-item loop of `DjangoJobAdmin.run_selected_jobs` (admin.py lines
78-98): for each requested id, look the job up; if absent emit a warning
message and `continue`, otherwise `add_job` it to the ephemeral scheduler and
record it as scheduled.  Returns (ids warned about, job ids scheduled),
in loop order. -/
def run_selected_jobs (lookup_job : String → Option AdminJob) :
    List String → List String × List String
  | [] => ([], [])
  | i :: rest =>
    match lookup_job i with
    | none =>
      let r := run_selected_jobs lookup_job rest
      (i :: r.1, r.2)
    | some j =>
      let r := run_selected_jobs lookup_job rest
      (r.1, j.id :: r.2)

/-- The uniqueness invariant declared by the `unique_job_executions`
constraint (models.py lines 221-225): pairwise-distinct (job_id, run_time). -/
def keysUnique (s : Store) : Prop :=
  (s.map keyOf).Nodup

instance (s : Store) : Decidable (keysUnique s) := by
  unfold keysUnique; infer_instance

/-! ### Helper lemmas about the store primitives -/

theorem findRecord_some (s : Store) (jid : String) (rt : Int) (je : ExecutionRecord)
    (h : findRecord s jid rt = some je) :
    je.job_id = jid ∧ je.run_time = rt ∧ je ∈ s := by
  induction s with
  | nil => simp [findRecord] at h
  | cons r s ih =>
    rw [findRecord] at h
    split at h
    case isTrue hc =>
      injection h with h
      rw [← h]
      have hk : r.job_id = jid ∧ r.run_time = rt := by simpa [sameKey] using hc
      exact ⟨hk.1, hk.2, List.mem_cons_self r s⟩
    case isFalse hc =>
      obtain ⟨h1, h2, h3⟩ := ih h
      exact ⟨h1, h2, List.mem_cons_of_mem r h3⟩

theorem findRecord_none_all (s : Store) (jid : String) (rt : Int)
    (h : findRecord s jid rt = none) : ∀ r ∈ s, sameKey r jid rt = false := by
  induction s with
  | nil => intro r hr; cases hr
  | cons a s ih =>
    rw [findRecord] at h
    split at h
    case isTrue hc => cases h
    case isFalse hc =>
      intro r hr
      rcases List.mem_cons.mp hr with rfl | hr
      · simpa using hc
      · exact ih h r hr

theorem findRecord_append_none (s l : Store) (jid : String) (rt : Int)
    (h : findRecord s jid rt = none) :
    findRecord (s ++ l) jid rt = findRecord l jid rt := by
  induction s with
  | nil => rfl
  | cons a s ih =>
    rw [findRecord] at h
    split at h
    case isTrue hc => cases h
    case isFalse hc =>
      rw [List.cons_append, findRecord, if_neg hc]
      exact ih h

theorem keyOf_saveRecord (s : Store) (je : ExecutionRecord) :
    (saveRecord s je).map keyOf = s.map keyOf := by
  induction s with
  | nil => rfl
  | cons a s ih =>
    rw [saveRecord, List.map_cons, List.map_cons, ih]
    congr 1
    split
    case isTrue hc =>
      have hk : a.job_id = je.job_id ∧ a.run_time = je.run_time := by
        simpa [sameKey] using hc
      simp [keyOf, ← hk.1, ← hk.2]
    case isFalse hc => rfl

theorem length_saveRecord (s : Store) (je : ExecutionRecord) :
    (saveRecord s je).length = s.length := by
  induction s with
  | nil => rfl
  | cons a s ih => rw [saveRecord]; simp [ih]

theorem saveRecord_append (s l : Store) (je : ExecutionRecord) :
    saveRecord (s ++ l) je = saveRecord s je ++ saveRecord l je := by
  induction s with
  | nil => rfl
  | cons a s ih =>
    rw [List.cons_append, saveRecord, saveRecord, ih, List.cons_append]

theorem saveRecord_no_match (s : Store) (je : ExecutionRecord)
    (h : ∀ r ∈ s, sameKey r je.job_id je.run_time = false) :
    saveRecord s je = s := by
  induction s with
  | nil => rfl
  | cons a s ih =>
    rw [saveRecord, if_neg (by simp [h a (List.mem_cons_self a s)]),
      ih (fun r hr => h r (List.mem_cons_of_mem a hr))]

theorem saveRecord_saveRecord (s : Store) (je : ExecutionRecord) :
    saveRecord (saveRecord s je) je = saveRecord s je := by
  induction s with
  | nil => rfl
  | cons a s ih =>
    simp only [saveRecord]
    rw [ih]
    by_cases hc : sameKey a je.job_id je.run_time = true
    · rw [if_pos hc, ite_self]
    · rw [if_neg hc, if_neg hc]

theorem findRecord_saveRecord (s : Store) (je : ExecutionRecord) (jid : String) (rt : Int)
    (h1 : je.job_id = jid) (h2 : je.run_time = rt) :
    findRecord (saveRecord s je) jid rt
      = (findRecord s jid rt).map (fun _ => je) := by
  subst h1 h2
  induction s with
  | nil => rfl
  | cons a s ih =>
    by_cases hc : sameKey a je.job_id je.run_time = true
    · rw [saveRecord, if_pos hc, findRecord, if_pos (by simp [sameKey]),
        findRecord, if_pos hc]
      simp
    · rw [saveRecord, if_neg hc, findRecord, if_neg hc, findRecord, if_neg hc, ih]

theorem keyOf_not_mem_of_findRecord_none (s : Store) (jid : String) (rt : Int)
    (h : findRecord s jid rt = none) : (jid, rt) ∉ s.map keyOf := by
  intro hmem
  rcases List.mem_map.mp hmem with ⟨r, hr, hk⟩
  have hfalse := findRecord_none_all s jid rt h r hr
  have h1 : r.job_id = jid := congrArg Prod.fst hk
  have h2 : r.run_time = rt := congrArg Prod.snd hk
  simp [sameKey, h1, h2] at hfalse

/-! ### Branch characterizations of `atomic_update_or_create` -/

/-- Existing record + incoming `SENT`: the event is discarded (models.py
lines 173-182). -/
theorem found_sent_eq (normalize : Int → Int) (now : Int) (store : Store)
    (jid : String) (rt : Int) (e t : Option String) (je : ExecutionRecord)
    (h : findRecord store jid (normalize rt) = some je) :
    atomic_update_or_create normalize now store jid rt SENT e t = (je, store) := by
  simp [atomic_update_or_create, h]

/-- Existing record + terminal status: overwrite and save (models.py
lines 184-194). -/
theorem found_update_eq (normalize : Int → Int) (now : Int) (store : Store)
    (jid : String) (rt : Int) (status : String) (e t : Option String)
    (je : ExecutionRecord)
    (h : findRecord store jid (normalize rt) = some je)
    (hb : (status == SENT) = false) :
    atomic_update_or_create normalize now store jid rt status e t
      = (⟨je.job_id, je.run_time, status, some (normalize now - normalize rt),
          some (normalize now), if truthy e then e else je.exception,
          if truthy t then t else je.traceback⟩,
        saveRecord store
          ⟨je.job_id, je.run_time, status, some (normalize now - normalize rt),
           some (normalize now), if truthy e then e else je.exception,
           if truthy t then t else je.traceback⟩) := by
  cases je
  simp [atomic_update_or_create, h, hb]

/-- No existing record: create one (models.py lines 196-211). -/
theorem notFound_eq (normalize : Int → Int) (now : Int) (store : Store)
    (jid : String) (rt : Int) (status : String) (e t : Option String)
    (h : findRecord store jid (normalize rt) = none) :
    atomic_update_or_create normalize now store jid rt status e t
      = (⟨jid, normalize rt, status,
          if status == SENT then none else some (normalize now - normalize rt),
          if status == SENT then none else some (normalize now), e, t⟩,
        store ++ [⟨jid, normalize rt, status,
          if status == SENT then none else some (normalize now - normalize rt),
          if status == SENT then none else some (normalize now), e, t⟩]) := by
  simp [atomic_update_or_create, h]

/-! ### Claim theorems -/

/-- C1: delivering a Submitted (`SENT`) event for a (job_id, run_time) pair
that already has an execution record leaves every field of that record and the
whole store unchanged, and returns the existing record. -/
theorem C1_submitted_after_existing_noop (normalize : Int → Int) (now : Int)
    (store : Store) (jid : String) (rt : Int) (e t : Option String)
    (je : ExecutionRecord)
    (h : findRecord store jid (normalize rt) = some je) :
    atomic_update_or_create normalize now store jid rt SENT e t = (je, store) :=
  found_sent_eq normalize now store jid rt e t je h

theorem C1_witness :
    findRecord [⟨"j1", 3, ERROR, some 4, some 7, some "boom", none⟩] "j1" (id 3)
        = some ⟨"j1", 3, ERROR, some 4, some 7, some "boom", none⟩
    ∧ atomic_update_or_create id 9
        [⟨"j1", 3, ERROR, some 4, some 7, some "boom", none⟩] "j1" 3 SENT none none
      = (⟨"j1", 3, ERROR, some 4, some 7, some "boom", none⟩,
        [⟨"j1", 3, ERROR, some 4, some 7, some "boom", none⟩]) :=
  ⟨by decide,
   C1_submitted_after_existing_noop id 9
     [⟨"j1", 3, ERROR, some 4, some 7, some "boom", none⟩] "j1" 3 none none
     ⟨"j1", 3, ERROR, some 4, some 7, some "boom", none⟩ (by decide)⟩

/-- C2: every `atomic_update_or_create` step preserves the invariant that the
store holds at most one execution record per (job_id, run_time) key. -/
theorem C2_key_uniqueness_invariant (normalize : Int → Int) (now : Int)
    (store : Store) (jid : String) (rt : Int) (status : String)
    (e t : Option String) (h : keysUnique store) :
    keysUnique (atomic_update_or_create normalize now store jid rt status e t).2 := by
  cases hf : findRecord store jid (normalize rt) with
  | some je =>
    by_cases hs : (status == SENT) = true
    · have hss : status = SENT := by simpa using hs
      subst hss
      rw [found_sent_eq normalize now store jid rt e t je hf]
      exact h
    · rw [found_update_eq normalize now store jid rt status e t je hf
        (by simpa using hs)]
      unfold keysUnique at h ⊢
      rw [keyOf_saveRecord]
      exact h
  | none =>
    rw [notFound_eq normalize now store jid rt status e t hf]
    unfold keysUnique at h ⊢
    rw [List.map_append]
    refine List.Nodup.append h (by simp) ?_
    intro x hx hx2
    simp only [List.map_cons, List.map_nil, List.mem_singleton] at hx2
    subst hx2
    exact keyOf_not_mem_of_findRecord_none store jid (normalize rt) hf hx

theorem C2_witness :
    keysUnique ((atomic_update_or_create id 3 [] "j1" 0 ERROR none none).2) :=
  C2_key_uniqueness_invariant id 3 [] "j1" 0 ERROR none none (by decide)

/-- C3: a terminal (non-`SENT`) event delivered for an existing record
overwrites its status with the incoming status, sets `finished` to the
normalized current time and `duration` to normalized now minus normalized
scheduled run time. -/
theorem C3_terminal_overwrites (normalize : Int → Int) (now : Int) (store : Store)
    (jid : String) (rt : Int) (status : String) (e t : Option String)
    (je : ExecutionRecord)
    (h : findRecord store jid (normalize rt) = some je)
    (hst : status ≠ SENT) :
    ((atomic_update_or_create normalize now store jid rt status e t).1).status = status
    ∧ ((atomic_update_or_create normalize now store jid rt status e t).1).finished
        = some (normalize now)
    ∧ ((atomic_update_or_create normalize now store jid rt status e t).1).duration
        = some (normalize now - normalize rt) := by
  rw [found_update_eq normalize now store jid rt status e t je h
    (beq_eq_false_iff_ne.mpr hst)]
  exact ⟨rfl, rfl, rfl⟩

theorem C3_witness :
    findRecord [⟨"j1", 2, SENT, none, none, none, none⟩] "j1" (id 2)
        = some ⟨"j1", 2, SENT, none, none, none, none⟩
    ∧ ERROR ≠ SENT
    ∧ (((atomic_update_or_create id 9 [⟨"j1", 2, SENT, none, none, none, none⟩]
          "j1" 2 ERROR (some "x") none).1).status = ERROR
      ∧ ((atomic_update_or_create id 9 [⟨"j1", 2, SENT, none, none, none, none⟩]
          "j1" 2 ERROR (some "x") none).1).finished = some 9
      ∧ ((atomic_update_or_create id 9 [⟨"j1", 2, SENT, none, none, none, none⟩]
          "j1" 2 ERROR (some "x") none).1).duration = some 7) :=
  ⟨by decide, by decide,
   C3_terminal_overwrites id 9 [⟨"j1", 2, SENT, none, none, none, none⟩]
     "j1" 2 ERROR (some "x") none ⟨"j1", 2, SENT, none, none, none, none⟩
     (by decide) (by decide)⟩

/-- C5: an event for a (job_id, run_time) pair with no existing record creates
exactly one new record, appended to the store: for a `SENT` event its
`duration` and `finished` are null, otherwise they are set to normalized now
minus normalized run time and normalized now, and the error fields are taken
from the event. -/
theorem C5_create_record (normalize : Int → Int) (now : Int) (store : Store)
    (jid : String) (rt : Int) (status : String) (e t : Option String)
    (h : findRecord store jid (normalize rt) = none) :
    (atomic_update_or_create normalize now store jid rt status e t).1
        = ⟨jid, normalize rt, status,
            if status == SENT then none else some (normalize now - normalize rt),
            if status == SENT then none else some (normalize now), e, t⟩
    ∧ (atomic_update_or_create normalize now store jid rt status e t).2
        = store ++ [(atomic_update_or_create normalize now store jid rt status e t).1] := by
  rw [notFound_eq normalize now store jid rt status e t h]
  exact ⟨rfl, rfl⟩

theorem C5_witness :
    (atomic_update_or_create id 9 [] "j1" 5 SENT (some "e") none).1
        = ⟨"j1", 5, SENT, none, none, some "e", none⟩
    ∧ (atomic_update_or_create id 9 [] "j1" 5 SENT (some "e") none).2
        = [] ++ [(atomic_update_or_create id 9 [] "j1" 5 SENT (some "e") none).1] :=
  C5_create_record id 9 [] "j1" 5 SENT (some "e") none (by decide)

/-- C10: a terminal event whose `exception` and `traceback` are absent (Python
falsy: `None` or the empty string) leaves the existing record's exception and
traceback untouched; only status, duration and finished are overwritten. -/
theorem C10_error_fields_frame (normalize : Int → Int) (now : Int) (store : Store)
    (jid : String) (rt : Int) (status : String) (e t : Option String)
    (je : ExecutionRecord)
    (h : findRecord store jid (normalize rt) = some je)
    (hst : status ≠ SENT)
    (he : truthy e = false) (ht : truthy t = false) :
    (atomic_update_or_create normalize now store jid rt status e t).1
      = { je with status := status,
                  duration := some (normalize now - normalize rt),
                  finished := some (normalize now) } := by
  rw [found_update_eq normalize now store jid rt status e t je h
    (beq_eq_false_iff_ne.mpr hst)]
  cases je
  simp [he, ht]

theorem C10_witness :
    (atomic_update_or_create id 9 [⟨"j1", 2, SENT, none, none, some "old", some "tb"⟩]
        "j1" 2 ERROR none (some "")).1
      = ⟨"j1", 2, ERROR, some 7, some 9, some "old", some "tb"⟩ :=
  C10_error_fields_frame id 9 [⟨"j1", 2, SENT, none, none, some "old", some "tb"⟩]
    "j1" 2 ERROR none (some "") ⟨"j1", 2, SENT, none, none, some "old", some "tb"⟩
    (by decide) (by decide) (by decide) (by decide)

/-- Looking up a name that no registered task carries walks the whole list and
falls through to `return None`. -/
theorem task_func_eq_none (tasks : List Task) (name : String)
    (h : ∀ tk ∈ tasks, tk.name ≠ name) : task_func tasks name = none := by
  induction tasks with
  | nil => rfl
  | cons a rest ih =>
    rw [task_func, if_neg (by simpa using h a (List.mem_cons_self a rest))]
    exact ih (fun tk htk => h tk (List.mem_cons_of_mem a htk))

/-- `task_func` returns the callable of the first task carrying the name. -/
theorem task_func_first_match (pre : List Task) (tk : Task) (post : List Task)
    (name : String) (hname : tk.name = name)
    (hpre : ∀ tk2 ∈ pre, tk2.name ≠ name) :
    task_func (pre ++ tk :: post) name = some tk.func := by
  induction pre with
  | nil => rw [List.nil_append, task_func, if_pos (by simpa using hname)]
  | cons a rest ih =>
    rw [List.cons_append, task_func,
      if_neg (by simpa using hpre a (List.mem_cons_self a rest))]
    exact ih (fun tk2 h2 => hpre tk2 (List.mem_cons_of_mem a h2))

/-- Collapsing the error-field conditional applied twice in a row. -/
theorem ite_ite_same (b : Bool) (x y : Option String) :
    (if b = true then x else if b = true then x else y)
      = if b = true then x else y := by
  cases b <;> simp

/-- C4 counterexample: the claim fails as stated.  A duplicate `SUCCESS`
event delivered later (now = 5 instead of 0) recomputes `finished` and
`duration` from the later wall clock, so the final state differs from
applying the event once. -/
theorem C4_counterexample :
    atomic_update_or_create id 5
        (atomic_update_or_create id 0 [] "j1" 0 SUCCESS none none).2
        "j1" 0 SUCCESS none none
      ≠ atomic_update_or_create id 0 [] "j1" 0 SUCCESS none none := by
  decide

/-- C4 (amended): applying the same terminal event twice in sequence with the
same current time leaves the record and the store exactly as applying it
once; when the second delivery happens at a later time, `finished` and
`duration` are recomputed from that later time (see the counterexample). -/
theorem C4_same_now_idempotent (normalize : Int → Int) (now : Int)
    (store : Store) (jid : String) (rt : Int) (status : String)
    (e t : Option String) (hst : status ≠ SENT) :
    atomic_update_or_create normalize now
        (atomic_update_or_create normalize now store jid rt status e t).2
        jid rt status e t
      = atomic_update_or_create normalize now store jid rt status e t := by
  have hb : (status == SENT) = false := beq_eq_false_iff_ne.mpr hst
  cases hf : findRecord store jid (normalize rt) with
  | some je =>
    obtain ⟨hj, hr, -⟩ := findRecord_some store jid (normalize rt) je hf
    obtain ⟨ji, rti, sti, di, fi, ei, ti⟩ := je
    dsimp only at hj hr
    subst hj
    subst hr
    rw [found_update_eq normalize now store ji rt status e t _ hf hb]
    dsimp only
    have hfind2 := findRecord_saveRecord store
      ⟨ji, normalize rt, status, some (normalize now - normalize rt),
        some (normalize now), if truthy e then e else ei,
        if truthy t then t else ti⟩ ji (normalize rt) rfl rfl
    rw [hf] at hfind2
    rw [found_update_eq normalize now _ ji rt status e t _ hfind2 hb]
    dsimp only
    simp only [ite_ite_same]
    rw [saveRecord_saveRecord]
  | none =>
    rw [notFound_eq normalize now store jid rt status e t hf]
    dsimp only
    simp only [hb, Bool.false_eq_true, if_false]
    have hfind2 : findRecord
        (store ++ [⟨jid, normalize rt, status,
          some (normalize now - normalize rt), some (normalize now), e, t⟩])
        jid (normalize rt)
        = some ⟨jid, normalize rt, status,
            some (normalize now - normalize rt), some (normalize now), e, t⟩ := by
      rw [findRecord_append_none store _ jid (normalize rt) hf]
      simp [findRecord, sameKey]
    rw [found_update_eq normalize now _ jid rt status e t _ hfind2 hb]
    dsimp only
    simp only [ite_self]
    rw [saveRecord_append,
      saveRecord_no_match store _ (findRecord_none_all store jid (normalize rt) hf)]
    simp [saveRecord]

theorem C4_witness :
    atomic_update_or_create id 5
        (atomic_update_or_create id 5 [] "j1" 0 SUCCESS none none).2
        "j1" 0 SUCCESS none none
      = atomic_update_or_create id 5 [] "j1" 0 SUCCESS none none :=
  C4_same_now_idempotent id 5 [] "j1" 0 SUCCESS none none (by decide)

/-- C6: in the run-now loop every requested id whose job is absent from the
durable store produces a warning and is skipped, while every id whose job is
found is scheduled on the ephemeral scheduler — independently of the other
ids in the batch. -/
theorem C6_missing_warns_found_scheduled (lookup_job : String → Option AdminJob)
    (ids : List String) (i : String) (hi : i ∈ ids) :
    (lookup_job i = none → i ∈ (run_selected_jobs lookup_job ids).1)
    ∧ (∀ j, lookup_job i = some j
        → j.id ∈ (run_selected_jobs lookup_job ids).2) := by
  induction ids with
  | nil => cases hi
  | cons a ids ih =>
    rcases List.mem_cons.mp hi with rfl | hi
    · constructor
      · intro hnone
        simp only [run_selected_jobs, hnone]
        exact List.mem_cons_self _ _
      · intro j hj
        simp only [run_selected_jobs, hj]
        exact List.mem_cons_self _ _
    · constructor
      · intro hnone
        simp only [run_selected_jobs]
        cases hl : lookup_job a
        · exact List.mem_cons_of_mem _ ((ih hi).1 hnone)
        · exact (ih hi).1 hnone
      · intro j hj
        simp only [run_selected_jobs]
        cases hl : lookup_job a
        · exact (ih hi).2 j hj
        · exact List.mem_cons_of_mem _ ((ih hi).2 j hj)

theorem C6_witness :
    "j2" ∈ (run_selected_jobs
        (fun n => if n == "j1" then some ⟨"j1", "app.tasks.task_f"⟩ else none)
        ["j1", "j2"]).1
    ∧ "j1" ∈ (run_selected_jobs
        (fun n => if n == "j1" then some ⟨"j1", "app.tasks.task_f"⟩ else none)
        ["j1", "j2"]).2 :=
  ⟨(C6_missing_warns_found_scheduled
      (fun n => if n == "j1" then some ⟨"j1", "app.tasks.task_f"⟩ else none)
      ["j1", "j2"] "j2" (by decide)).1 (by decide),
   (C6_missing_warns_found_scheduled
      (fun n => if n == "j1" then some ⟨"j1", "app.tasks.task_f"⟩ else none)
      ["j1", "j2"] "j1" (by decide)).2 ⟨"j1", "app.tasks.task_f"⟩ (by decide)⟩

/-- C7 counterexample: the claim fails as stated.  With `max_age = 0` the
cleanup only removes records with `run_time ≤ now`; a record scheduled in the
future of `now` survives, so not all existing records are removed. -/
theorem C7_counterexample :
    delete_old_job_executions 0 0 [⟨"j1", 1, SENT, none, none, none, none⟩]
      ≠ [] := by
  decide

/-- C7 (amended): with `max_age = 0` the cleanup removes exactly the records
with `run_time ≤ now` (only future-scheduled records survive); with `max_age`
strictly greater than every record's age it removes none; and
`atomic_update_or_create` never deletes records — the store never shrinks. -/
theorem C7_retention_cleanup (now max_age : Int) (store : Store)
    (normalize : Int → Int) (now2 : Int) (jid : String) (rt : Int)
    (status : String) (e t : Option String)
    (hage : ∀ r ∈ store, now - r.run_time < max_age) :
    delete_old_job_executions now 0 store
        = store.filter (fun r => decide (now < r.run_time))
    ∧ delete_old_job_executions now max_age store = store
    ∧ store.length
        ≤ ((atomic_update_or_create normalize now2 store jid rt status e t).2).length := by
  refine ⟨?_, ?_, ?_⟩
  · unfold delete_old_job_executions
    apply List.filter_congr
    intro r _
    rw [Int.sub_zero, ← decide_not]
    exact decide_eq_decide.mpr not_le
  · unfold delete_old_job_executions
    apply List.filter_eq_self.mpr
    intro r hr
    have h1 := hage r hr
    simp only [Bool.not_eq_true', decide_eq_false_iff_not, not_le]
    omega
  · cases hf : findRecord store jid (normalize rt) with
    | some je =>
      by_cases hs : (status == SENT) = true
      · have hss : status = SENT := by simpa using hs
        subst hss
        rw [found_sent_eq normalize now2 store jid rt e t je hf]
      · rw [found_update_eq normalize now2 store jid rt status e t je hf
          (by simpa using hs)]
        dsimp only
        rw [length_saveRecord]
    | none =>
      rw [notFound_eq normalize now2 store jid rt status e t hf]
      dsimp only
      rw [List.length_append]
      simp

theorem C7_witness :
    delete_old_job_executions 10 0 [⟨"j1", 3, ERROR, some 1, some 4, none, none⟩]
        = ([⟨"j1", 3, ERROR, some 1, some 4, none, none⟩] : Store).filter
            (fun r => decide ((10 : Int) < r.run_time))
    ∧ delete_old_job_executions 10 100 [⟨"j1", 3, ERROR, some 1, some 4, none, none⟩]
        = [⟨"j1", 3, ERROR, some 1, some 4, none, none⟩]
    ∧ ([⟨"j1", 3, ERROR, some 1, some 4, none, none⟩] : Store).length
        ≤ ((atomic_update_or_create id 11
            [⟨"j1", 3, ERROR, some 1, some 4, none, none⟩]
            "j1" 3 SUCCESS none none).2).length :=
  C7_retention_cleanup 10 100 [⟨"j1", 3, ERROR, some 1, some 4, none, none⟩]
    id 11 "j1" 3 SUCCESS none none (by decide)

/-- C8 counterexample: the claim fails as stated.  For a name absent from the
registry `task_func` returns the ordinary value `None` (embedded as `none`)
instead of failing; the spec-modelled `resolve_spec` fails with
`TaskNotFoundError` on the same input. -/
theorem C8_counterexample :
    task_func [] "app.missing" = none
    ∧ resolve_spec [] "app.missing" = Except.error "TaskNotFoundError" :=
  ⟨rfl, rfl⟩

/-- C8 (amended): for every name carried by no registered task, `task_func`
returns `none` (Python `None`) without raising any error; for a registered
name it returns the callable of the first task carrying that name. -/
theorem C8_task_func_lookup (tasks : List Task) (name : String) :
    ((∀ tk ∈ tasks, tk.name ≠ name) → task_func tasks name = none)
    ∧ (∀ pre tk post, tasks = pre ++ tk :: post → tk.name = name →
        (∀ tk2 ∈ pre, tk2.name ≠ name) → task_func tasks name = some tk.func) := by
  constructor
  · exact task_func_eq_none tasks name
  · intro pre tk post heq hname hpre
    subst heq
    exact task_func_first_match pre tk post name hname hpre

theorem C8_witness :
    task_func [⟨"task_a", "fa", "docs"⟩] "task_b" = none
    ∧ task_func [⟨"task_a", "fa", "docs"⟩] "task_a" = some "fa" :=
  ⟨(C8_task_func_lookup [⟨"task_a", "fa", "docs"⟩] "task_b").1 (by decide),
   (C8_task_func_lookup [⟨"task_a", "fa", "docs"⟩] "task_a").2 []
     ⟨"task_a", "fa", "docs"⟩ [] rfl rfl (by decide)⟩

/-- C9 counterexample: the claim fails as stated.  The declared
`STATUS_CHOICES` of the execution model omit the `MISSED` and `MAX_INSTANCES`
statuses, so the declared admissible set is not the five-element set claimed. -/
theorem C9_counterexample :
    MISSED ∉ STATUS_CHOICES.map Prod.fst
    ∧ MAX_INSTANCES ∉ STATUS_CHOICES.map Prod.fst := by
  decide

/-- C9 (amended): the declared admissible status set is exactly
{SENT, ERROR, SUCCESS}; the `MISSED` and `MAX_INSTANCES` constants exist on
the model but are not declared choices, and the reconciler stores any incoming
status string on a record whether declared or not. -/
theorem C9_status_choices (status : String) (normalize : Int → Int)
    (now rt : Int) (jid : String) (e t : Option String) :
    STATUS_CHOICES.map Prod.fst = [SENT, ERROR, SUCCESS]
    ∧ ((atomic_update_or_create normalize now [] jid rt status e t).1).status
        = status := by
  refine ⟨rfl, ?_⟩
  rw [notFound_eq normalize now [] jid rt status e t rfl]

end DjangoApscheduler
